import Mathlib

/-!
Verification of the `MemoryCache` TTL cache (src/golang/main.go).

The cache is embedded shallowly:
* `storage` models the `sync.Map` as a function `String → Option α`
  (`none` means the key is absent); values are kept abstract in a type
  parameter `α`, mirroring Go's `interface{}` values.
* `pending` models the set of `time.AfterFunc` timers that have been
  armed and have not yet fired, as a list of `(key, fireTime)` pairs.
  Time is a natural number of abstract ticks; `Set` called at instant
  `now` with time-to-live `ttl` arms a timer with `fireTime = now + ttl`.
* `fireDue t` models the timer subsystem running every armed action whose
  fire time has arrived by instant `t`: each such action unconditionally
  deletes its captured key from the storage (exactly what the Go closure
  `func() { mc.storage.Delete(key) }` does) and is then spent.

Each façade operation that returns results is modelled as a function
returning the result tuple together with the post-state, so that frame
properties (what an operation does *not* change) are statable.
-/

structure MemoryCache (α : Type) where
  storage : String → Option α
  pending : List (String × Nat)

/-- `NewMemoryCache` returns an empty cache: the zero `sync.Map` is empty
and no timer has been armed. -/
def NewMemoryCache (α : Type) : MemoryCache α :=
  { storage := fun _ => none, pending := [] }

/-- `Set` (main.go lines 22-30): `mc.storage.Store(key, value)` replaces any
prior value, then `time.AfterFunc(ttl, …Delete(key))` arms one new
expiration action firing at `now + ttl`.  Previously armed actions are
left in place; nothing is returned. -/
def MemoryCache.Set (mc : MemoryCache α) (key : String) (value : α)
    (now ttl : Nat) : MemoryCache α :=
  { storage := fun k => if k = key then some value else mc.storage k
    pending := mc.pending ++ [(key, now + ttl)] }

/-- `GetOrSet` (main.go lines 36-45): `LoadOrStore` returns the existing
value when present (`loaded = true`, no timer armed); otherwise it stores
the given value, arms a timer for `ttl`, and returns the given value with
`loaded = false`. -/
def MemoryCache.GetOrSet (mc : MemoryCache α) (key : String) (value : α)
    (now ttl : Nat) : (α × Bool) × MemoryCache α :=
  match mc.storage key with
  | some existing => ((existing, true), mc)
  | none =>
      ((value, false),
       { storage := fun k => if k = key then some value else mc.storage k
         pending := mc.pending ++ [(key, now + ttl)] })

/-- `Get` (main.go lines 50-52): `mc.storage.Load(key)`, a read returning
the stored value (or `none`) and the presence flag; the state is
returned unchanged. -/
def MemoryCache.Get (mc : MemoryCache α) (key : String) :
    (Option α × Bool) × MemoryCache α :=
  ((mc.storage key, (mc.storage key).isSome), mc)

/-- `Expire` (main.go lines 58-60): `mc.storage.LoadAndDelete(key)` removes
the key, returning the removed value and whether it was present.  Armed
timers are not touched. -/
def MemoryCache.Expire (mc : MemoryCache α) (key : String) :
    (Option α × Bool) × MemoryCache α :=
  ((mc.storage key, (mc.storage key).isSome),
   { storage := fun k => if k = key then none else mc.storage k
     pending := mc.pending })

/-- `Refresh` (main.go lines 64-71): `mc.Get(key)`; if present, `mc.Set`
with the current value and the fresh `ttl` and return `true`; otherwise
return `false` with no effect. -/
def MemoryCache.Refresh (mc : MemoryCache α) (key : String)
    (now ttl : Nat) : Bool × MemoryCache α :=
  match mc.storage key with
  | some value => (true, mc.Set key value now ttl)
  | none => (false, mc)

/-- `ExpireAll` (main.go lines 74-76): `mc.storage.Clear()` empties the
store; outstanding timers remain scheduled. -/
def MemoryCache.ExpireAll (mc : MemoryCache α) : MemoryCache α :=
  { storage := fun _ => none, pending := mc.pending }

/-- The timer subsystem running at instant `t`: every armed action whose
fire time is `≤ t` runs `mc.storage.Delete(key)` on its captured key —
unconditionally, with no check of what is currently stored there — and
is spent (removed from the outstanding set). -/
def MemoryCache.fireDue (mc : MemoryCache α) (t : Nat) : MemoryCache α :=
  { storage := fun k =>
      if mc.pending.any (fun p => p.1 == k && decide (p.2 ≤ t)) then none
      else mc.storage k
    pending := mc.pending.filter (fun p => decide (t < p.2)) }

/-- Claim C1: for every key `k` and value `v`, `Set(k, v, ttl)` followed by
`Get(k)` with no intervening operation, at any instant `t` before the new
`ttl` elapses (`t < now + ttl`) and with no previously armed action for `k`
due by `t` (no intervening deletion runs), returns `(v, true)`. -/
theorem set_then_get_within_ttl (mc : MemoryCache α) (k : String) (v : α)
    (now ttl t : Nat) (hlt : t < now + ttl)
    (hstale : ∀ f, (k, f) ∈ mc.pending → t < f) :
    (((mc.Set k v now ttl).fireDue t).Get k).1 = (some v, true) := by
  simp [MemoryCache.Get, MemoryCache.fireDue, MemoryCache.Set]
  exact ⟨fun x f hmem hxk => hstale f (by rwa [hxk] at hmem), hlt⟩

/-- Witness for C1: on the empty cache, `Set "a" 7` at instant 0 with
ttl 5 followed by `Get "a"` at instant 3 returns `(7, true)`. -/
theorem set_then_get_witness :
    ((((NewMemoryCache Nat).Set "a" 7 0 5).fireDue 3).Get "a").1 = (some 7, true) :=
  set_then_get_within_ttl (NewMemoryCache Nat) "a" 7 0 5 3 (by decide)
    (by intro f hf; simp [NewMemoryCache] at hf)

/-- Claim C3: an expiration action armed by `Set` (or by the inserting
branch of `GetOrSet`) is scheduled for `now + ttl`; when due it deletes its
key unconditionally — with no hypothesis about what `storage` holds — and
is spent (fires exactly once); when not yet due it stays armed; and arming
a new action preserves every previously armed action (never cancels). -/
theorem expiration_action_unconditional (mc : MemoryCache α) (k : String)
    (v : α) (now ttl t f : Nat) :
    ((mc.Set k v now ttl).pending = mc.pending ++ [(k, now + ttl)]) ∧
    (mc.storage k = none →
      (mc.GetOrSet k v now ttl).2.pending = mc.pending ++ [(k, now + ttl)]) ∧
    ((k, f) ∈ mc.pending → f ≤ t →
      (mc.fireDue t).storage k = none ∧ (k, f) ∉ (mc.fireDue t).pending) ∧
    ((k, f) ∈ mc.pending → t < f → (k, f) ∈ (mc.fireDue t).pending) := by
  refine ⟨rfl, fun habs => ?_, fun hmem hdue => ⟨?_, ?_⟩, fun hmem hnot => ?_⟩
  · simp [MemoryCache.GetOrSet, habs]
  · simp only [MemoryCache.fireDue]
    rw [if_pos]
    rw [List.any_eq_true]
    exact ⟨(k, f), hmem, by simp [hdue]⟩
  · simp [MemoryCache.fireDue, Nat.not_lt.mpr hdue]
  · simp [MemoryCache.fireDue, hmem, hnot]

/-- Witness for C3: a timer armed for instant 2 deletes its key when the
subsystem runs at instant 5 and is then gone; the inserting branch of
`GetOrSet` arms a timer; a timer not yet due at instant 1 stays armed. -/
theorem expiration_action_unconditional_witness :
    ((((NewMemoryCache Nat).Set "b" 9 0 2).fireDue 5).storage "b" = none ∧
      ("b", 2) ∉ (((NewMemoryCache Nat).Set "b" 9 0 2).fireDue 5).pending) ∧
    ((NewMemoryCache Nat).GetOrSet "a" 1 0 3).2.pending
      = (NewMemoryCache Nat).pending ++ [("a", 3)] ∧
    ("b", 2) ∈ (((NewMemoryCache Nat).Set "b" 9 0 2).fireDue 1).pending :=
  ⟨⟨((expiration_action_unconditional ((NewMemoryCache Nat).Set "b" 9 0 2)
        "b" 0 0 0 5 2).2.2.1 (by decide) (by decide)).1,
    ((expiration_action_unconditional ((NewMemoryCache Nat).Set "b" 9 0 2)
        "b" 0 0 0 5 2).2.2.1 (by decide) (by decide)).2⟩,
   (expiration_action_unconditional (NewMemoryCache Nat) "a" 1 0 3 0 0).2.1 rfl,
   (expiration_action_unconditional ((NewMemoryCache Nat).Set "b" 9 0 2)
        "b" 0 0 0 1 2).2.2.2 (by decide) (by decide)⟩

/-- Claim C2, evaluated on the code as written: `Set("A", 1, 200)` at
instant 0, `Set("A", 2, 200)` at instant 50, `Get("A")` at instant 220
returns `(none, false)`, not `(2, true)`: the first write's action fires
at instant 200 and unconditionally deletes the value written at 50. -/
theorem stale_action_destroys_newer_write :
    ((((((NewMemoryCache Nat).Set "A" 1 0 200).fireDue 50).Set "A" 2 50 200).fireDue
        220).Get "A").1 = (none, false) := by decide

/-- Claim C4: `GetOrSet` on an absent key stores the given value, arms an
expiration action, and returns `(v1, false)`; a second `GetOrSet` on the
now-present key returns `(v1, true)` and leaves the cache state — store
and pending actions — completely unchanged. -/
theorem getOrSet_insert_then_hit (mc : MemoryCache α) (k : String) (v1 v2 : α)
    (now ttl now2 ttl2 : Nat) (habs : mc.storage k = none) :
    (mc.GetOrSet k v1 now ttl).1 = (v1, false) ∧
    (mc.GetOrSet k v1 now ttl).2.storage k = some v1 ∧
    (mc.GetOrSet k v1 now ttl).2.pending = mc.pending ++ [(k, now + ttl)] ∧
    ((mc.GetOrSet k v1 now ttl).2.GetOrSet k v2 now2 ttl2).1 = (v1, true) ∧
    ((mc.GetOrSet k v1 now ttl).2.GetOrSet k v2 now2 ttl2).2
      = (mc.GetOrSet k v1 now ttl).2 := by
  simp [MemoryCache.GetOrSet, habs]

/-- Witness for C4 on the empty cache with values 1 then 2 under key "a". -/
theorem getOrSet_insert_then_hit_witness :
    ((NewMemoryCache Nat).GetOrSet "a" 1 0 5).1 = (1, false) ∧
    ((NewMemoryCache Nat).GetOrSet "a" 1 0 5).2.storage "a" = some 1 ∧
    ((NewMemoryCache Nat).GetOrSet "a" 1 0 5).2.pending
      = (NewMemoryCache Nat).pending ++ [("a", 5)] ∧
    (((NewMemoryCache Nat).GetOrSet "a" 1 0 5).2.GetOrSet "a" 2 3 9).1 = (1, true) ∧
    (((NewMemoryCache Nat).GetOrSet "a" 1 0 5).2.GetOrSet "a" 2 3 9).2
      = ((NewMemoryCache Nat).GetOrSet "a" 1 0 5).2 :=
  getOrSet_insert_then_hit (NewMemoryCache Nat) "a" 1 2 0 5 3 9 rfl

/-- Claim C5: `Expire` on a present key returns `(currentValue, true)` and a
subsequent `Get` returns `(none, false)`; on an absent key it returns
`(none, false)` and leaves the store (every key) and the armed actions
unchanged. -/
theorem expire_removes_key (mc : MemoryCache α) (k : String) :
    (∀ v, mc.storage k = some v →
      (mc.Expire k).1 = (some v, true) ∧ ((mc.Expire k).2.Get k).1 = (none, false)) ∧
    (mc.storage k = none →
      (mc.Expire k).1 = (none, false) ∧
      (∀ k', (mc.Expire k).2.storage k' = mc.storage k') ∧
      (mc.Expire k).2.pending = mc.pending) := by
  refine ⟨fun v hv => ?_, fun habs => ⟨?_, fun k' => ?_, rfl⟩⟩
  · simp [MemoryCache.Expire, MemoryCache.Get, hv]
  · simp [MemoryCache.Expire, habs]
  · by_cases hk : k' = k
    · subst hk; simp [MemoryCache.Expire, habs]
    · simp [MemoryCache.Expire, hk]

/-- Witness for C5: expiring a key holding 5 returns `(5, true)` and the
key is then gone; expiring an absent key returns `(none, false)`. -/
theorem expire_removes_key_witness :
    ((((NewMemoryCache Nat).Set "a" 5 0 10).Expire "a").1 = (some 5, true) ∧
      (((((NewMemoryCache Nat).Set "a" 5 0 10).Expire "a").2.Get "a").1
        = (none, false))) ∧
    ((NewMemoryCache Nat).Expire "b").1 = (none, false) :=
  ⟨(expire_removes_key ((NewMemoryCache Nat).Set "a" 5 0 10) "a").1 5 (by decide),
   ((expire_removes_key (NewMemoryCache Nat) "b").2 rfl).1⟩

/-- Claim C6: `Refresh` on an absent key returns `false` and leaves the
cache exactly as it was (no store change, no action armed); on a present
key it returns `true` and is literally a `Set` of the current value with
the fresh ttl, so the value is re-stored and a brand-new expiration action
is armed at `now + ttl`. -/
theorem refresh_semantics (mc : MemoryCache α) (k : String) (now ttl : Nat) :
    (mc.storage k = none →
      (mc.Refresh k now ttl).1 = false ∧ (mc.Refresh k now ttl).2 = mc) ∧
    (∀ v, mc.storage k = some v →
      (mc.Refresh k now ttl).1 = true ∧
      (mc.Refresh k now ttl).2 = mc.Set k v now ttl ∧
      (mc.Refresh k now ttl).2.storage k = some v ∧
      (mc.Refresh k now ttl).2.pending = mc.pending ++ [(k, now + ttl)]) := by
  refine ⟨fun habs => ?_, fun v hv => ?_⟩
  · simp [MemoryCache.Refresh, habs]
  · simp [MemoryCache.Refresh, MemoryCache.Set, hv]

/-- Witness for C6: refreshing an absent key is a no-op returning `false`;
refreshing a key holding 4 returns `true`, keeps the value, and arms a new
action at `2 + 7 = 9`. -/
theorem refresh_semantics_witness :
    (((NewMemoryCache Nat).Refresh "a" 0 5).1 = false ∧
      ((NewMemoryCache Nat).Refresh "a" 0 5).2 = NewMemoryCache Nat) ∧
    ((((NewMemoryCache Nat).Set "a" 4 0 9).Refresh "a" 2 7).1 = true ∧
      (((NewMemoryCache Nat).Set "a" 4 0 9).Refresh "a" 2 7).2.storage "a" = some 4 ∧
      (((NewMemoryCache Nat).Set "a" 4 0 9).Refresh "a" 2 7).2.pending
        = ((NewMemoryCache Nat).Set "a" 4 0 9).pending ++ [("a", 9)]) :=
  ⟨(refresh_semantics (NewMemoryCache Nat) "a" 0 5).1 rfl,
   ((refresh_semantics ((NewMemoryCache Nat).Set "a" 4 0 9) "a" 2 7).2 4
      (by decide)).1,
   (((refresh_semantics ((NewMemoryCache Nat).Set "a" 4 0 9) "a" 2 7).2 4
      (by decide)).2).2.1,
   (((refresh_semantics ((NewMemoryCache Nat).Set "a" 4 0 9) "a" 2 7).2 4
      (by decide)).2).2.2⟩

/-- Claim C7: after `ExpireAll`, `Get` returns `(none, false)` for every
key — in particular for every previously-set one; the cache is empty. -/
theorem expireAll_clears (mc : MemoryCache α) (k : String) :
    ((mc.ExpireAll).Get k).1 = (none, false) := by
  simp [MemoryCache.ExpireAll, MemoryCache.Get]

/-- Claim C8: `Get` is a pure read — the state it returns is the very state
it was given, so the store, every key's presence and every pending action
are untouched — and on an absent (never-set or fully-expired) key it
returns `(none, false)`. -/
theorem get_is_pure_read (mc : MemoryCache α) (k : String) :
    (mc.Get k).2 = mc ∧
    (mc.storage k = none → (mc.Get k).1 = (none, false)) := by
  refine ⟨rfl, fun habs => ?_⟩
  simp [MemoryCache.Get, habs]

/-- Witness for C8 on the empty cache: `Get "a"` changes nothing and
reports absence. -/
theorem get_is_pure_read_witness :
    ((NewMemoryCache Nat).Get "a").2 = NewMemoryCache Nat ∧
    ((NewMemoryCache Nat).Get "a").1 = (none, false) :=
  ⟨(get_is_pure_read (NewMemoryCache Nat) "a").1,
   (get_is_pure_read (NewMemoryCache Nat) "a").2 rfl⟩

/-- Claim C9: the operations are total functions — `Set` and `ExpireAll`
return only the new state and `Get`, `GetOrSet`, `Expire`, `Refresh` return
plain result tuples, so no input produces an error — and absence of a key
is communicated exactly by the boolean flags: each flag reads `false`
(resp. `loaded = false` for `GetOrSet`) precisely when the key is absent. -/
theorem absence_reported_by_flags (mc : MemoryCache α) (k : String) (v : α)
    (now ttl : Nat) :
    ((mc.Get k).1.2 = false ↔ mc.storage k = none) ∧
    ((mc.Expire k).1.2 = false ↔ mc.storage k = none) ∧
    ((mc.Refresh k now ttl).1 = false ↔ mc.storage k = none) ∧
    ((mc.GetOrSet k v now ttl).1.2 = false ↔ mc.storage k = none) := by
  cases hv : mc.storage k <;>
    simp [MemoryCache.Get, MemoryCache.Expire, MemoryCache.Refresh,
      MemoryCache.GetOrSet, hv]

/-- Claim C10: every per-key operation on key `k` leaves the value stored
under any other key `k'` unchanged; only `ExpireAll` touches more than one
key. -/
theorem per_key_frame (mc : MemoryCache α) (k k' : String) (v : α)
    (now ttl : Nat) (hne : k' ≠ k) :
    (mc.Set k v now ttl).storage k' = mc.storage k' ∧
    (mc.GetOrSet k v now ttl).2.storage k' = mc.storage k' ∧
    (mc.Get k).2.storage k' = mc.storage k' ∧
    (mc.Expire k).2.storage k' = mc.storage k' ∧
    (mc.Refresh k now ttl).2.storage k' = mc.storage k' := by
  cases hv : mc.storage k <;>
    simp [MemoryCache.Set, MemoryCache.GetOrSet, MemoryCache.Get,
      MemoryCache.Expire, MemoryCache.Refresh, hv, hne]

/-- Witness for C10: operations on key "a" leave the value stored under
"b" alone. -/
theorem per_key_frame_witness :
    ((((NewMemoryCache Nat).Set "b" 9 0 10).Set "a" 1 2 5).storage "b"
      = ((NewMemoryCache Nat).Set "b" 9 0 10).storage "b" ∧
     (((NewMemoryCache Nat).Set "b" 9 0 10).GetOrSet "a" 1 2 5).2.storage "b"
      = ((NewMemoryCache Nat).Set "b" 9 0 10).storage "b" ∧
     (((NewMemoryCache Nat).Set "b" 9 0 10).Get "a").2.storage "b"
      = ((NewMemoryCache Nat).Set "b" 9 0 10).storage "b" ∧
     (((NewMemoryCache Nat).Set "b" 9 0 10).Expire "a").2.storage "b"
      = ((NewMemoryCache Nat).Set "b" 9 0 10).storage "b" ∧
     (((NewMemoryCache Nat).Set "b" 9 0 10).Refresh "a" 2 5).2.storage "b"
      = ((NewMemoryCache Nat).Set "b" 9 0 10).storage "b") :=
  per_key_frame ((NewMemoryCache Nat).Set "b" 9 0 10) "a" "b" 1 2 5 (by decide)
